import Mathlib

/-!
Verification development for the web-scraper orchestrator.

The definitions below are a shallow embedding of the Python sources
`src/base_scraper.py` and `src/keyword_search.py`:

* `ContentFilterConfig` / `shouldFilter` / `filterItems` embed the
  `ContentFilter` class (base_scraper.py lines 11-133);
* `ScraperResult` / `addAnnouncement` / `toDict` embed the `ScraperResult`
  class (lines 158-264);
* `Corpus` / `loadExistingData` / `updateMasterData` / `updateMasterFile`
  embed `ScraperOrchestrator.load_existing_data` and
  `ScraperOrchestrator.update_master_file` (lines 508-530 and 709-783);
* `feedSortKey` / `sortItemsDesc` embed the feed sort used by
  `FeedGenerator.generate_latest_feed` (line 318) and
  `KeywordSearcher.generate_keyword_feed` (line 276);
* `searchInItem` and its helpers embed `KeywordSearcher._search_in_item`
  (keyword_search.py lines 43-111).

Python strings are modelled as Lean `String` (a list of characters compared
by code point, as Python compares), Python sets of URLs as duplicate-free
`List String`, Python dicts with fixed key sets as structures, and
insertion-ordered dicts with dynamic keys as association lists.  Timestamps
(`datetime.now().isoformat()`) and generated uuids are passed in as explicit
string parameters.  Regex patterns and user-supplied custom filter callables
are modelled as opaque boolean functions; a custom callable that raises is
modelled as returning `none` (the source swallows the exception and moves on).
-/

/-! ### String helpers (Python string primitives used by the source) -/

/-- Python `needle in hay` (substring containment) on lists of characters. -/
def listContains (needle : List Char) : List Char → Bool
  | [] => needle.isPrefixOf []
  | c :: rest => needle.isPrefixOf (c :: rest) || listContains needle rest

/-- Python `needle in hay` on strings. -/
def strContains (hay needle : String) : Bool :=
  listContains needle.data hay.data

/-- ASCII lower-casing of one character, as Python `str.lower` acts on the
ASCII characters used throughout this code base. -/
def charToLower (c : Char) : Char :=
  if 65 ≤ c.toNat ∧ c.toNat ≤ 90 then Char.ofNat (c.toNat + 32) else c

/-- Python `s.lower()` (restricted to its ASCII behaviour). -/
def strToLower (s : String) : String :=
  ⟨s.data.map charToLower⟩

/-- Python whitespace characters stripped by `str.strip()`. -/
def isPyWhitespace (c : Char) : Bool :=
  c = ' ' ∨ c = '\t' ∨ c = '\n' ∨ c = '\r' ∨ c = '\x0b' ∨ c = '\x0c'

/-- Python `s.strip()`. -/
def strStrip (s : String) : String :=
  ⟨((s.data.dropWhile isPyWhitespace).reverse.dropWhile isPyWhitespace).reverse⟩

/-- Python `<` on strings: lexicographic comparison by code point. -/
def strLtL : List Char → List Char → Bool
  | [], [] => false
  | [], _ :: _ => true
  | _ :: _, [] => false
  | a :: as, b :: bs =>
    if a.toNat < b.toNat then true
    else if b.toNat < a.toNat then false
    else strLtL as bs

/-- Python `a < b` on strings. -/
def strLt (a b : String) : Bool :=
  strLtL a.data b.data

/-- Boolean membership of a string in a list (Python `x in xs`). -/
def memStr (u : String) : List String → Bool
  | [] => false
  | x :: rest => if x = u then true else memStr u rest

/-- Python `set.add`: insert a string into a duplicate-free list if absent. -/
def insertIfAbsent (l : List String) (u : String) : List String :=
  if memStr u l then l else l ++ [u]

/-! ### Items and the content filter (`ContentFilter`, base_scraper.py 11-133) -/

/-- A raw announcement dict as handed to `add_announcement` /
`should_filter`: each field is `none` when the key is absent.  Source
accesses go through `dict.get(key, default)`, embedded as `Option.getD`. -/
structure Item where
  id : Option String := none
  title : Option String := none
  url : Option String := none
  date : Option String := none
  category : Option String := none
  excerpt : Option String := none
deriving DecidableEq, Repr

/-- Reason codes returned by `ContentFilter.should_filter`.  The source
formats them as strings (for example `f"title_keyword: 'kw'"`); the embedding
keeps the same data as constructor arguments. -/
inductive FilterReason where
  | exactTitleMatch (t : String)
  | titleKeyword (k : String)
  | urlKeyword (k : String)
  | urlPattern (idx : Nat)
  | categoryMatch (c : String)
  | titleTooShort (titleLen minLen : Nat)
  | customFilter
deriving DecidableEq, Repr

/-- The declarative rule set held by a `ContentFilter` (its `__init__`
configuration).  Regex patterns (`url_exclude_patterns`, matched with
`re.search`) are abstracted as boolean functions on the url; a custom filter
callable is a function returning `none` when it raises (the source catches
the exception, prints a warning, and treats the item as not matched). -/
structure ContentFilterConfig where
  title_exclude_keywords : List String
  url_exclude_keywords : List String
  url_exclude_patterns : List (String → Bool)
  title_exclude_exact : List String
  category_exclude : List String
  min_title_length : Nat
  custom_filters : List (Item → Option Bool)
  case_sensitive : Bool

/-- Lower-case a string unless the configuration is case sensitive (the
`title_check` / `check_keyword` pattern of `should_filter`). -/
def lowerIf (case_sensitive : Bool) (s : String) : String :=
  if case_sensitive then s else strToLower s

/-- `ContentFilter.should_filter` (base_scraper.py 44-106): returns
`some reason` when the item is to be dropped, `none` when it is kept.
The checks run in the source order: exact title, title keywords, url
keywords, url regex patterns, category, minimum trimmed-title length,
custom callables. -/
def shouldFilter (cfg : ContentFilterConfig) (item : Item) : Option FilterReason :=
  let title := item.title.getD ""
  let url := item.url.getD ""
  let category := item.category.getD ""
  let titleCheck := lowerIf cfg.case_sensitive title
  let urlCheck := lowerIf cfg.case_sensitive url
  let categoryCheck := lowerIf cfg.case_sensitive category
  match cfg.title_exclude_exact.find? (fun t => titleCheck = lowerIf cfg.case_sensitive t) with
  | some t => some (.exactTitleMatch t)
  | none =>
  match cfg.title_exclude_keywords.find? (fun k => strContains titleCheck (lowerIf cfg.case_sensitive k)) with
  | some k => some (.titleKeyword k)
  | none =>
  match cfg.url_exclude_keywords.find? (fun k => strContains urlCheck (lowerIf cfg.case_sensitive k)) with
  | some k => some (.urlKeyword k)
  | none =>
  match cfg.url_exclude_patterns.enum.find? (fun p => p.2 url) with
  | some p => some (.urlPattern p.1)
  | none =>
  match cfg.category_exclude.find? (fun c => lowerIf cfg.case_sensitive c = categoryCheck) with
  | some c => some (.categoryMatch c)
  | none =>
  if (strStrip title).data.length < cfg.min_title_length then
    some (.titleTooShort title.data.length cfg.min_title_length)
  else
  match cfg.custom_filters.find? (fun f => f item = some true) with
  | some _ => some .customFilter
  | none => none

/-- The default rule set built by `ContentFilter.__init__` when no
configuration is supplied, and likewise by
`ScraperOrchestrator._get_default_filter_config`. -/
def defaultFilterConfig : ContentFilterConfig where
  title_exclude_keywords := ["rss", "subscribe", "subscription", "newsletter signup"]
  url_exclude_keywords := ["rss", "feed", "subscribe"]
  url_exclude_patterns := []
  title_exclude_exact := ["Subscribe to news release RSS feed"]
  category_exclude := []
  min_title_length := 3
  custom_filters := []
  case_sensitive := false

/-- The mutable statistics state of a `ContentFilter`: `filtered_count` and
the insertion-ordered `filter_reasons` dict, together with its rule set. -/
structure ContentFilterState where
  config : ContentFilterConfig
  filtered_count : Nat
  filter_reasons : List (FilterReason × Nat)

/-- `self.filter_reasons[reason] = self.filter_reasons.get(reason, 0) + 1`
on the insertion-ordered dict. -/
def bumpReason (reasons : List (FilterReason × Nat)) (r : FilterReason) : List (FilterReason × Nat) :=
  match reasons with
  | [] => [(r, 1)]
  | (r₀, n) :: rest => if r₀ = r then (r₀, n + 1) :: rest else (r₀, n) :: bumpReason rest r

/-- `ContentFilter.filter_items` (base_scraper.py 108-121): drops the items
matched by `should_filter`, tallying `filtered_count` and `filter_reasons`,
and returns the survivors in order. -/
def filterItems (st : ContentFilterState) (items : List Item) : ContentFilterState × List Item :=
  items.foldl
    (fun acc item =>
      match shouldFilter acc.1.config item with
      | some r =>
        ({ acc.1 with
            filtered_count := acc.1.filtered_count + 1
            filter_reasons := bumpReason acc.1.filter_reasons r }, acc.2)
      | none => (acc.1, acc.2 ++ [item]))
    (st, [])

/-! ### The result accumulator (`ScraperResult`, base_scraper.py 158-264) -/

/-- The standardized announcement shape produced by
`ScraperResult._standardize_announcement` (lines 205-217). -/
structure StdAnnouncement where
  id : String
  title : String
  url : String
  date : String
  category : String
  excerpt : String
  source_website : String
  scraped_at : String
  raw_data : Item
deriving DecidableEq, Repr

/-- A raw full-content dict as handed to `add_full_content`. -/
structure ContentItem where
  id : Option String := none
  url : Option String := none
  title : Option String := none
  date_published : Option String := none
  full_content : Option String := none
  word_count : Option Nat := none
  images : Option (List String) := none
  links : Option (List String) := none
  contact_info : Option String := none
  tags : Option (List String) := none
  comments : Option (List String) := none
  metadata : Option (List (String × String)) := none
deriving DecidableEq, Repr

/-- The standardized full-content shape produced by
`ScraperResult._standardize_content` (lines 219-237). -/
structure StdContent where
  id : String
  url : String
  title : String
  date_published : String
  full_content : String
  word_count : Nat
  images : List String
  links : List String
  contact_info : String
  tags : List String
  comments : List String
  metadata : List (String × String)
  source_website : String
  scraped_at : String
  raw_data : ContentItem
deriving DecidableEq, Repr

/-- The in-memory state of a `ScraperResult` (its `__init__` fields,
lines 161-175).  `scraped_at` and `session_id` are the timestamp and uuid
fixed at construction. -/
structure ScraperResult where
  scraper_name : String
  website : String
  scraped_at : String
  session_id : String
  announcements : List StdAnnouncement
  full_content : List StdContent
  metadata : List (String × String)
  errors : List String
  statistics : List (String × String)
  existing_urls : List String
  new_urls : List String
  skipped_duplicates : Nat
  content_filter : ContentFilterState
  filtered_items : Nat

/-- `ScraperResult.__init__`: a fresh accumulator with empty collections and
zeroed counters. -/
def mkScraperResult (scraper_name website scraped_at session_id : String)
    (existing_urls : List String) (cfg : ContentFilterConfig) : ScraperResult where
  scraper_name := scraper_name
  website := website
  scraped_at := scraped_at
  session_id := session_id
  announcements := []
  full_content := []
  metadata := []
  errors := []
  statistics := []
  existing_urls := existing_urls
  new_urls := []
  skipped_duplicates := 0
  content_filter := ⟨cfg, 0, []⟩
  filtered_items := 0

/-- `ScraperResult._standardize_announcement`: fill defaults, keep the raw
dict, stamp the source website and scrape timestamp.  `freshId` is the
`str(uuid.uuid4())` generated when the item has no `id`. -/
def standardizeAnnouncement (r : ScraperResult) (freshId : String) (a : Item) : StdAnnouncement where
  id := a.id.getD freshId
  title := a.title.getD ""
  url := a.url.getD ""
  date := a.date.getD ""
  category := a.category.getD "General"
  excerpt := a.excerpt.getD ""
  source_website := r.website
  scraped_at := r.scraped_at
  raw_data := a

/-- `ScraperResult.add_announcement` (base_scraper.py 177-198).  Returns the
updated accumulator and the boolean the method returns: the content filter
runs first (`filtered_items` tally); then a non-empty url already in
`existing_urls` is skipped as a duplicate (`skipped_duplicates` tally);
otherwise the standardized item is appended and a non-empty url is added to
`new_urls`. -/
def addAnnouncement (r : ScraperResult) (freshId : String) (a : Item) : ScraperResult × Bool :=
  let url := a.url.getD ""
  match shouldFilter r.content_filter.config a with
  | some _ => ({ r with filtered_items := r.filtered_items + 1 }, false)
  | none =>
    if url ≠ "" ∧ memStr url r.existing_urls then
      ({ r with skipped_duplicates := r.skipped_duplicates + 1 }, false)
    else
      let r' := { r with announcements := r.announcements ++ [standardizeAnnouncement r freshId a] }
      let r'' := if url ≠ "" then { r' with new_urls := insertIfAbsent r'.new_urls url } else r'
      (r'', true)

/-- `ScraperResult._standardize_content`. -/
def standardizeContent (r : ScraperResult) (freshId : String) (c : ContentItem) : StdContent where
  id := c.id.getD freshId
  url := c.url.getD ""
  title := c.title.getD ""
  date_published := c.date_published.getD ""
  full_content := c.full_content.getD ""
  word_count := c.word_count.getD 0
  images := c.images.getD []
  links := c.links.getD []
  contact_info := c.contact_info.getD ""
  tags := c.tags.getD []
  comments := c.comments.getD []
  metadata := c.metadata.getD []
  source_website := r.website
  scraped_at := r.scraped_at
  raw_data := c

/-- `ScraperResult.add_full_content`: standardize and append unconditionally. -/
def addFullContent (r : ScraperResult) (freshId : String) (c : ContentItem) : ScraperResult :=
  { r with full_content := r.full_content ++ [standardizeContent r freshId c] }

/-! ### Serialized scraper records and the master document -/

/-- The `scraper_info` block of a serialized record. -/
structure ScraperInfo where
  scraper_name : String
  website : String
  scraped_at : String
  session_id : String
deriving DecidableEq, Repr

/-- The statistics block produced by `ScraperResult.to_dict` (lines 250-259).
`extra` models the trailing `**self.statistics` splat (the free-form entries
`run_scraper` adds, such as `date_range`). -/
structure RunStatistics where
  total_announcements : Nat
  total_full_content : Nat
  total_errors : Nat
  skipped_duplicates : Nat
  filtered_items : Nat
  filter_reasons : List (FilterReason × Nat)
  new_urls_found : Nat
  extra : List (String × String)
deriving DecidableEq, Repr

/-- The statistics block written by `update_master_file` for an existing
scraper (lines 745-754). -/
structure MergedStatistics where
  total_announcements : Nat
  total_full_content : Nat
  total_errors : Nat
  last_scrape_new_items : Nat
  last_scrape_skipped : Nat
  last_scrape_filtered : Nat
  filter_reasons : List (FilterReason × Nat)
  last_scrape_date : String
deriving DecidableEq, Repr

/-- The two shapes a scraper record's `statistics` dict can take in the
master file. -/
inductive Statistics where
  | run : RunStatistics → Statistics
  | merged : MergedStatistics → Statistics
deriving DecidableEq, Repr

/-- `stats.get('total_announcements', 0)`: both shapes carry the key. -/
def Statistics.getTotalAnnouncements : Statistics → Nat
  | .run s => s.total_announcements
  | .merged s => s.total_announcements

/-- `stats.get('skipped_duplicates', 0)`: only the run shape carries the key. -/
def Statistics.getSkippedDuplicates : Statistics → Nat
  | .run s => s.skipped_duplicates
  | .merged _ => 0

/-- `stats.get('filtered_items', 0)`: only the run shape carries the key. -/
def Statistics.getFilteredItems : Statistics → Nat
  | .run s => s.filtered_items
  | .merged _ => 0

/-- `stats.get('filter_reasons', {})`: both shapes carry the key. -/
def Statistics.getFilterReasons : Statistics → List (FilterReason × Nat)
  | .run s => s.filter_reasons
  | .merged s => s.filter_reasons

/-- A per-scraper record of the master document (the dict produced by
`to_dict` and mutated by the merge). -/
structure ScraperData where
  scraper_info : ScraperInfo
  statistics : Statistics
  announcements : List StdAnnouncement
  full_content : List StdContent
  metadata : List (String × String)
  errors : List String
deriving DecidableEq, Repr

/-- `ScraperResult.to_dict` (base_scraper.py 239-264): the serialized record,
whose statistics block reads `filter_reasons` from the content filter's own
tally (`self.content_filter.get_statistics()`). -/
def ScraperResult.toDict (r : ScraperResult) : ScraperData where
  scraper_info :=
    { scraper_name := r.scraper_name
      website := r.website
      scraped_at := r.scraped_at
      session_id := r.session_id }
  statistics := .run
    { total_announcements := r.announcements.length
      total_full_content := r.full_content.length
      total_errors := r.errors.length
      skipped_duplicates := r.skipped_duplicates
      filtered_items := r.filtered_items
      filter_reasons := r.content_filter.filter_reasons
      new_urls_found := r.new_urls.length
      extra := r.statistics }
  announcements := r.announcements
  full_content := r.full_content
  metadata := r.metadata
  errors := r.errors

/-! ### The master document (`ScraperOrchestrator`, base_scraper.py 449-783) -/

/-- The `scraping_history` block of the master document. -/
structure ScrapingHistory where
  first_scrape : String
  last_updated : String
  total_scrapes : Nat
deriving DecidableEq, Repr

/-- The `summary` block.  The synthesized empty corpus carries only the
three totals; `scrapers_count` and `last_updated` appear once
`update_master_file` has recomputed the summary, so they are optional. -/
structure Summary where
  total_announcements : Nat
  total_full_content : Nat
  total_errors : Nat
  scrapers_count : Option Nat := none
  last_updated : Option String := none
deriving DecidableEq, Repr

/-- The master JSON document.  `results_by_scraper` is an insertion-ordered
mapping from scraper name to its record, embedded as an association list
with pairwise-distinct keys. -/
structure Corpus where
  scraping_history : ScrapingHistory
  summary : Summary
  results_by_scraper : List (String × ScraperData)
deriving DecidableEq, Repr

/-- Association-list lookup (Python `dict[key]` / `dict.get(key)`). -/
def alookup {β : Type} (m : List (String × β)) (name : String) : Option β :=
  match m with
  | [] => none
  | p :: rest => if p.1 = name then some p.2 else alookup rest name

/-- Python `key in dict`. -/
def containsKey {β : Type} (m : List (String × β)) (name : String) : Bool :=
  match m with
  | [] => false
  | p :: rest => if p.1 = name then true else containsKey rest name

/-- Replace the value stored under `name`, leaving other entries alone
(in-place mutation of one dict entry). -/
def updateEntry {β : Type} (m : List (String × β)) (name : String) (f : β → β) :
    List (String × β) :=
  m.map (fun p => if p.1 = name then (p.1, f p.2) else p)

/-- The empty corpus shape synthesized by `load_existing_data` when the
master file is absent (base_scraper.py 511-523); `now` is the
`datetime.now().isoformat()` timestamp it stamps. -/
def emptyCorpus (now : String) : Corpus where
  scraping_history := { first_scrape := now, last_updated := now, total_scrapes := 0 }
  summary := { total_announcements := 0, total_full_content := 0, total_errors := 0 }
  results_by_scraper := []

/-- The state of the master file on disk: absent, present but unreadable or
unparseable, or present with a parseable corpus. -/
inductive FileState where
  | absent
  | corrupt
  | valid (c : Corpus)

/-- `ScraperOrchestrator.load_existing_data` (base_scraper.py 508-530).
When the file is absent the empty shape is returned; when it parses, the
parsed corpus is returned; when reading or parsing raises, the handler
prints a warning and calls `self.load_existing_data()` again on the very
same still-corrupt file.  `fuel` models the Python recursion limit: each
recursive call consumes one unit, and `none` models the `RecursionError`
crash when the recursion never reaches a base case. -/
def loadExistingData (now : String) (fuel : Nat) (fs : FileState) : Option Corpus :=
  match fs with
  | .absent => some (emptyCorpus now)
  | .valid c => some c
  | .corrupt =>
    match fuel with
    | 0 => none
    | fuel' + 1 => loadExistingData now fuel' .corrupt

/-- The merge of one new run record into an existing scraper record
(the `else` branch of the loop in `update_master_file`, lines 724-754):
`scraper_info` is overwritten with the new info, the three collections are
extended, and the statistics block is rebuilt from the post-append lengths
plus the last-run deltas read off the incoming record. -/
def mergeScraperData (old new : ScraperData) : ScraperData where
  scraper_info := new.scraper_info
  announcements := old.announcements ++ new.announcements
  full_content := old.full_content ++ new.full_content
  errors := old.errors ++ new.errors
  metadata := old.metadata
  statistics := .merged
    { total_announcements := (old.announcements ++ new.announcements).length
      total_full_content := (old.full_content ++ new.full_content).length
      total_errors := (old.errors ++ new.errors).length
      last_scrape_new_items := new.statistics.getTotalAnnouncements
      last_scrape_skipped := new.statistics.getSkippedDuplicates
      last_scrape_filtered := new.statistics.getFilteredItems
      filter_reasons := new.statistics.getFilterReasons
      last_scrape_date := new.scraper_info.scraped_at }

/-- The per-scraper update loop of `update_master_file` (lines 720-754):
a new scraper name is appended wholesale, an existing one is merged in
place. -/
def mergeStep (acc : List (String × ScraperData)) (nr : String × ScraperResult) :
    List (String × ScraperData) :=
  if containsKey acc nr.1 then
    updateEntry acc nr.1 (fun old => mergeScraperData old nr.2.toDict)
  else
    acc ++ [(nr.1, nr.2.toDict)]

/-- The summary recomputation of `update_master_file` (lines 756-776):
corpus-wide totals summed over all scraper records, the scraper count, and
the update timestamp. -/
def computeSummary (now : String) (m : List (String × ScraperData)) : Summary where
  total_announcements := (m.map (fun p => p.2.announcements.length)).sum
  total_full_content := (m.map (fun p => p.2.full_content.length)).sum
  total_errors := (m.map (fun p => p.2.errors.length)).sum
  scrapers_count := some m.length
  last_updated := some now

/-- The in-memory transformation performed by `update_master_file`
(base_scraper.py 709-776, everything before the final write): stamp the
history, fold the per-scraper merge over the new results, and recompute the
summary from the merged mapping. -/
def updateMasterData (now : String) (existing : Corpus)
    (newResults : List (String × ScraperResult)) : Corpus :=
  let m := newResults.foldl mergeStep existing.results_by_scraper
  { scraping_history :=
      { existing.scraping_history with
          last_updated := now
          total_scrapes := existing.scraping_history.total_scrapes + 1 }
    summary := computeSummary now m
    results_by_scraper := m }

/-- A file-system effect of the persist step. -/
inductive FsOp where
  | write (path content : String)
  | rename (src dst : String)
deriving DecidableEq, Repr

/-- `ScraperOrchestrator.update_master_file` including its persist step
(lines 779-780): the merged corpus is serialized and written directly to
the master file path with `open(self.master_file_path, 'w')` followed by
`json.dump` — a single truncating write of the backing file.  `serialize`
abstracts `json.dump`'s rendering of the document. -/
def updateMasterFile (now masterPath : String) (serialize : Corpus → String)
    (existing : Corpus) (newResults : List (String × ScraperResult)) :
    Corpus × List FsOp :=
  let updated := updateMasterData now existing newResults
  (updated, [FsOp.write masterPath (serialize updated)])

/-! ### Feed sorting (`FeedGenerator.generate_latest_feed`, base_scraper.py
305-341, and `KeywordSearcher.generate_keyword_feed`, keyword_search.py
220-298) -/

/-- The lightweight projection of an announcement built by
`FeedGenerator.create_lightweight_item` (base_scraper.py 283-293). -/
structure LightItem where
  id : String
  title : String
  url : String
  date : String
  category : String
  excerpt : String
  source_website : String
  scraped_at : String
deriving DecidableEq, Repr

/-- `create_lightweight_item` for an announcement: fixed display fields with
the excerpt truncated to 200 characters. -/
def createLightweightItem (a : StdAnnouncement) : LightItem where
  id := a.id
  title := a.title
  url := a.url
  date := a.date
  category := a.category
  excerpt := if a.excerpt = "" then "" else ⟨a.excerpt.data.take 200⟩
  source_website := a.source_website
  scraped_at := a.scraped_at

/-- The sort key of the date-descending feed sort, shared by
`generate_latest_feed` (base_scraper.py line 318), `generate_scraper_feeds`
(line 357) and `generate_keyword_feed` (keyword_search.py line 276):
`x.get('date', '') or x.get('scraped_at', '')`, i.e. the `date` field when
it is non-empty and the `scraped_at` field otherwise. -/
def feedSortKey (x : LightItem) : String :=
  if x.date = "" then x.scraped_at else x.date

/-- The order relation of `list.sort(key=..., reverse=True)`: an item may
precede another exactly when its key is not smaller. -/
def keyGe (a b : LightItem) : Prop :=
  strLt (feedSortKey a) (feedSortKey b) = false

instance : DecidableRel keyGe := fun a b =>
  inferInstanceAs (Decidable (strLt (feedSortKey a) (feedSortKey b) = false))

/-- `all_items.sort(key=lambda x: x.get('date', '') or x.get('scraped_at', ''), reverse=True)`:
a stable descending sort on the feed sort key. -/
def sortItemsDesc (l : List LightItem) : List LightItem :=
  List.insertionSort keyGe l

/-! ### Keyword search (`KeywordSearcher`, keyword_search.py 9-206) -/

/-- The two search modes of `search_announcements` / `_search_in_item`. -/
inductive SearchMode where
  | any
  | all
deriving DecidableEq, Repr

/-- A record being searched, as a flat field-name-to-string mapping.  The
source additionally resolves dotted field paths into nested raw payloads and
coerces non-string values with `str()`; the records and fields the search
claims speak about are flat and string-valued, which this embedding covers:
`item.get(field, '')` is an association-list lookup defaulting to `""`. -/
def SearchItem := List (String × String)

/-- `item.get(field, '')` for a searched record. -/
def getFieldValue (item : SearchItem) (field : String) : String :=
  (alookup item field).getD ""

/-- `KeywordSearcher._text_contains_keyword` (keyword_search.py 43-50):
empty text matches nothing; otherwise substring containment, lower-cased on
both sides unless case sensitive. -/
def textContainsKeyword (text keyword : String) (case_sensitive : Bool) : Bool :=
  if text = "" then false
  else if case_sensitive then strContains text keyword
  else strContains (strToLower text) (strToLower keyword)

/-- `KeywordSearcher._text_contains_keywords` (keyword_search.py 52-67):
collect the keywords found in the text, then decide the match per mode
(`all`: as many found as there are keywords; `any`: at least one found). -/
def textContainsKeywords (text : String) (keywords : List String)
    (mode : SearchMode) (case_sensitive : Bool) : Bool × List String :=
  let matched := keywords.filter (fun k => textContainsKeyword text k case_sensitive)
  match mode with
  | .all => (matched.length = keywords.length, matched)
  | .any => (decide (0 < matched.length), matched)

/-- Python `set.update`: add the elements of `new` not already present. -/
def unionList (s new : List String) : List String :=
  new.foldl insertIfAbsent s

/-- One iteration of the per-field loop of `_search_in_item`
(keyword_search.py 79-103): when any keyword is found in the field's value,
record the matched keywords under the field name and add them to the running
set of matched keywords. -/
def searchFieldStep (item : SearchItem) (keywords : List String) (case_sensitive : Bool)
    (acc : List (String × List String) × List String) (field : String) :
    List (String × List String) × List String :=
  let fv := getFieldValue item field
  let res := textContainsKeywords fv keywords .any case_sensitive
  if res.1 then (acc.1 ++ [(field, res.2)], unionList acc.2 res.2) else acc

/-- The per-field accumulation loop of `_search_in_item`. -/
def searchFields (item : SearchItem) (keywords : List String) (case_sensitive : Bool)
    (fields : List String) (acc : List (String × List String) × List String) :
    List (String × List String) × List String :=
  fields.foldl (searchFieldStep item keywords case_sensitive) acc

/-- `KeywordSearcher._search_in_item` (keyword_search.py 69-111): returns
whether the record matches and the field-to-matched-keywords map.  Under
`all` the record matches when the set of matched keywords (unioned across
the fields) has as many elements as the keyword list; under `any`, when
that set is non-empty. -/
def searchInItem (item : SearchItem) (keywords : List String) (fields : List String)
    (mode : SearchMode) (case_sensitive : Bool) : Bool × List (String × List String) :=
  let res := searchFields item keywords case_sensitive fields ([], [])
  let found :=
    match mode with
    | .all => decide (res.2.length = keywords.length)
    | .any => decide (0 < res.2.length)
  (found, res.1)

/-! ### Helper lemmas -/

theorem memStr_append (u : String) (l₁ l₂ : List String) :
    memStr u (l₁ ++ l₂) = (memStr u l₁ || memStr u l₂) := by
  induction l₁ with
  | nil => simp [memStr]
  | cons x t ih => by_cases h : x = u <;> simp [memStr, h, ih]

theorem memStr_insertIfAbsent_self (l : List String) (u : String) :
    memStr u (insertIfAbsent l u) = true := by
  unfold insertIfAbsent
  by_cases h : memStr u l <;> simp [h, memStr_append, memStr]

/-- `add_announcement` never touches the accumulator's identity fields, its
content filter (in particular the filter's reason tally), its existing-URL
set, or the unrelated collections. -/
theorem addAnnouncement_preserves (r : ScraperResult) (freshId : String) (a : Item) :
    (addAnnouncement r freshId a).1.content_filter = r.content_filter ∧
    (addAnnouncement r freshId a).1.existing_urls = r.existing_urls ∧
    (addAnnouncement r freshId a).1.website = r.website ∧
    (addAnnouncement r freshId a).1.scraped_at = r.scraped_at ∧
    (addAnnouncement r freshId a).1.scraper_name = r.scraper_name ∧
    (addAnnouncement r freshId a).1.session_id = r.session_id ∧
    (addAnnouncement r freshId a).1.full_content = r.full_content ∧
    (addAnnouncement r freshId a).1.errors = r.errors ∧
    (addAnnouncement r freshId a).1.statistics = r.statistics := by
  unfold addAnnouncement
  cases shouldFilter r.content_filter.config a <;> dsimp
  · split
    · simp
    · split <;> simp
  · simp

/-- Per-call effect of `add_announcement` on the two rejection counters. -/
theorem addAnnouncement_counts (r : ScraperResult) (freshId : String) (a : Item) :
    (addAnnouncement r freshId a).1.filtered_items
      = r.filtered_items
        + (if (shouldFilter r.content_filter.config a).isSome then 1 else 0) ∧
    (addAnnouncement r freshId a).1.skipped_duplicates
      = r.skipped_duplicates
        + (if (shouldFilter r.content_filter.config a).isNone
              ∧ a.url.getD "" ≠ "" ∧ memStr (a.url.getD "") r.existing_urls = true
           then 1 else 0) := by
  unfold addAnnouncement
  cases shouldFilter r.content_filter.config a <;> dsimp
  · split
    · rename_i h
      simp [h]
    · rename_i h
      split <;> simp [h]
  · simp

/-! ### Concrete fixtures used by witnesses and counterexamples -/

/-- A plain announcement that passes the default filter and carries a url. -/
def itemPlain : Item := { title := some "Hello world news", url := some "https://example.com/a" }

/-- An announcement the default filter drops (its title contains `rss`). -/
def itemRss : Item := { title := some "rss updates page" }

/-- An announcement that is both a filter match (title contains `subscribe`)
and a duplicate of a known url. -/
def itemBoth : Item := { title := some "Subscribe now to updates", url := some "https://example.com/x" }

/-- An announcement without a url. -/
def itemNoUrl : Item := { title := some "Great discovery announced" }

/-- A fresh accumulator with no known urls and the default filter. -/
def demoResult : ScraperResult :=
  mkScraperResult "demo_scraper" "example.com" "2024-09-30T10:00:00" "sess-1" [] defaultFilterConfig

/-- A fresh accumulator that already knows the urls `https://example.com/x`
and the empty string. -/
def demoResultKnown : ScraperResult :=
  mkScraperResult "demo_scraper" "example.com" "2024-09-30T10:00:00" "sess-1"
    ["https://example.com/x", ""] defaultFilterConfig

/-! ### C1 -/

/-- C1 counterexample: from a fresh accumulator, the very same announcement
(non-empty url `https://example.com/a`, accepted by the default filter) is
accepted by `add_announcement` twice in the same run — the claim says the
second call must not accept it.  The new-URLs set records the url after the
first call, but `add_announcement` only ever consults `existing_urls`. -/
theorem addAnnouncement_accepts_same_url_twice :
    shouldFilter defaultFilterConfig itemPlain = none ∧
    itemPlain.url = some "https://example.com/a" ∧
    (addAnnouncement demoResult "id-1" itemPlain).2 = true ∧
    memStr "https://example.com/a" (addAnnouncement demoResult "id-1" itemPlain).1.new_urls
      = true ∧
    (addAnnouncement (addAnnouncement demoResult "id-1" itemPlain).1 "id-2" itemPlain).2
      = true ∧
    (addAnnouncement (addAnnouncement demoResult "id-1" itemPlain).1 "id-2" itemPlain).1.announcements.length = 2 := by
  refine ⟨by decide, rfl, by decide, by decide, by decide, by decide⟩

/-- C1 amended: an accepted announcement's non-empty url is recorded in the
new-URLs set, but `add_announcement` checks incoming urls only against the
existing-URL set captured at construction, which it never extends; hence a
second `add_announcement` call in the same run with the same url is accepted
again — the new-URLs set does not prevent within-run duplicates. -/
theorem addAnnouncement_within_run_duplicate_accepted (r : ScraperResult)
    (freshId₁ freshId₂ u : String) (a : Item)
    (hurl : a.url.getD "" = u) (hne : u ≠ "")
    (hf : shouldFilter r.content_filter.config a = none)
    (hnew : memStr u r.existing_urls = false) :
    (addAnnouncement r freshId₁ a).2 = true ∧
    memStr u (addAnnouncement r freshId₁ a).1.new_urls = true ∧
    (addAnnouncement (addAnnouncement r freshId₁ a).1 freshId₂ a).2 = true := by
  have hpres := addAnnouncement_preserves r freshId₁ a
  have hstep : addAnnouncement r freshId₁ a
      = ({ r with
            announcements := r.announcements ++ [standardizeAnnouncement r freshId₁ a]
            new_urls := insertIfAbsent r.new_urls u }, true) := by
    unfold addAnnouncement
    rw [hf]
    simp [hurl, hne, hnew]
  refine ⟨by rw [hstep], ?_, ?_⟩
  · rw [hstep]
    exact memStr_insertIfAbsent_self r.new_urls u
  · rw [hstep]
    unfold addAnnouncement
    rw [show ({ r with
            announcements := r.announcements ++ [standardizeAnnouncement r freshId₁ a]
            new_urls := insertIfAbsent r.new_urls u } : ScraperResult).content_filter
          = r.content_filter from rfl]
    rw [hf]
    simp [hurl, hne, hnew]

/-- C1 amended, witnessed at the fixture input. -/
theorem addAnnouncement_within_run_duplicate_accepted_witness :
    (addAnnouncement demoResult "id-1" itemPlain).2 = true ∧
    memStr "https://example.com/a" (addAnnouncement demoResult "id-1" itemPlain).1.new_urls
      = true ∧
    (addAnnouncement (addAnnouncement demoResult "id-1" itemPlain).1 "id-2" itemPlain).2
      = true :=
  addAnnouncement_within_run_duplicate_accepted demoResult "id-1" "id-2"
    "https://example.com/a" itemPlain (by decide) (by decide) (by decide) (by decide)

/-! ### C4 -/

/-- C4: an announcement that both matches a filter rule and whose url is
already in the existing-URL set is rejected by `add_announcement` with the
filtered-items tally incremented and the duplicate tally untouched: the
filter check returns before the duplicate check is ever reached. -/
theorem addAnnouncement_filter_before_dedup (r : ScraperResult) (freshId : String)
    (a : Item) (re : FilterReason)
    (hf : shouldFilter r.content_filter.config a = some re)
    (_hdup : memStr (a.url.getD "") r.existing_urls = true) :
    (addAnnouncement r freshId a).2 = false ∧
    (addAnnouncement r freshId a).1.filtered_items = r.filtered_items + 1 ∧
    (addAnnouncement r freshId a).1.skipped_duplicates = r.skipped_duplicates := by
  unfold addAnnouncement
  rw [hf]
  exact ⟨rfl, rfl, rfl⟩

/-- C4, witnessed: `itemBoth` has title keyword `subscribe` and its url is
known to `demoResultKnown`; it is tallied as filtered, not as a duplicate. -/
theorem addAnnouncement_filter_before_dedup_witness :
    (addAnnouncement demoResultKnown "id-1" itemBoth).2 = false ∧
    (addAnnouncement demoResultKnown "id-1" itemBoth).1.filtered_items
      = demoResultKnown.filtered_items + 1 ∧
    (addAnnouncement demoResultKnown "id-1" itemBoth).1.skipped_duplicates
      = demoResultKnown.skipped_duplicates :=
  addAnnouncement_filter_before_dedup demoResultKnown "id-1" itemBoth
    (.titleKeyword "subscribe") (by decide) (by decide)

/-! ### C10 -/

/-- C10: an announcement whose url is empty or absent and which passes the
content filter is always accepted: the duplicate branch is skipped even when
the empty string is in the existing-URL set, `skipped_duplicates` is not
incremented, the empty url is not added to the new-URLs set, and the
standardized item is appended. -/
theorem addAnnouncement_empty_url_always_accepted (r : ScraperResult)
    (freshId : String) (a : Item)
    (hurl : a.url.getD "" = "")
    (hf : shouldFilter r.content_filter.config a = none) :
    (addAnnouncement r freshId a).2 = true ∧
    (addAnnouncement r freshId a).1.skipped_duplicates = r.skipped_duplicates ∧
    (addAnnouncement r freshId a).1.new_urls = r.new_urls ∧
    (addAnnouncement r freshId a).1.announcements
      = r.announcements ++ [standardizeAnnouncement r freshId a] := by
  unfold addAnnouncement
  rw [hf]
  simp [hurl]

/-- C10, witnessed: `itemNoUrl` has no url and `demoResultKnown` even lists
the empty string among its existing urls; the item is accepted and no
deduplication state changes. -/
theorem addAnnouncement_empty_url_always_accepted_witness :
    (addAnnouncement demoResultKnown "id-9" itemNoUrl).2 = true ∧
    (addAnnouncement demoResultKnown "id-9" itemNoUrl).1.skipped_duplicates
      = demoResultKnown.skipped_duplicates ∧
    (addAnnouncement demoResultKnown "id-9" itemNoUrl).1.new_urls
      = demoResultKnown.new_urls ∧
    (addAnnouncement demoResultKnown "id-9" itemNoUrl).1.announcements
      = demoResultKnown.announcements
        ++ [standardizeAnnouncement demoResultKnown "id-9" itemNoUrl] :=
  addAnnouncement_empty_url_always_accepted demoResultKnown "id-9" itemNoUrl
    (by decide) (by decide)

/-! ### C2 -/

/-- C2: `load_existing_data` on a master file that exists but cannot be read
or parsed never produces a corpus: the exception handler re-invokes
`load_existing_data` on the same still-corrupt file, so the call recurses
until the interpreter's recursion limit aborts the run (`none` for every
fuel).  The claim — and the code's own `# Return empty structure` comment —
say the empty shape should be returned instead. -/
theorem loadExistingData_corrupt_never_returns (now : String) :
    ∀ fuel, loadExistingData now fuel FileState.corrupt = none := by
  intro fuel
  induction fuel with
  | zero => rfl
  | succ n ih => simpa [loadExistingData] using ih

/-! ### C3 -/

/-- C3 counterexample: at a concrete corpus and serializer, the persist step
of `update_master_file` does not consist of a write to a temporary path
followed by a rename onto the master path — refuting the claimed atomic
write-then-rename discipline. -/
theorem updateMasterFile_not_atomic_counterexample :
    ¬ ∃ tmp content, tmp ≠ "scraped_data/master_scraped_data.json" ∧
      (updateMasterFile "t1" "scraped_data/master_scraped_data.json"
          (fun _ => "serialized") (emptyCorpus "t0") []).2
        = [FsOp.write tmp content,
           FsOp.rename tmp "scraped_data/master_scraped_data.json"] := by
  rintro ⟨tmp, content, -, h⟩
  simp [updateMasterFile] at h

/-- C3 amended: the persist step is a single truncating write of the
serialized corpus directly to the master file path (`open(path, 'w')` plus
`json.dump`); no temporary file and no rename are involved, so an
interruption mid-write can leave a half-written document. -/
theorem updateMasterFile_direct_write (now masterPath : String)
    (serialize : Corpus → String) (existing : Corpus)
    (rs : List (String × ScraperResult)) :
    (updateMasterFile now masterPath serialize existing rs).2
      = [FsOp.write masterPath (serialize (updateMasterData now existing rs))] := rfl

/-! ### C6 -/

/-- C6: after any merge, the corpus-wide summary is recomputed from the
merged mapping itself: the three totals are the sums of the per-scraper
collection lengths and the scraper count is the size of the mapping. -/
theorem updateMasterData_summary_consistent (now : String) (c : Corpus)
    (rs : List (String × ScraperResult)) :
    (updateMasterData now c rs).summary.total_announcements
      = ((updateMasterData now c rs).results_by_scraper.map
          (fun p => p.2.announcements.length)).sum ∧
    (updateMasterData now c rs).summary.total_full_content
      = ((updateMasterData now c rs).results_by_scraper.map
          (fun p => p.2.full_content.length)).sum ∧
    (updateMasterData now c rs).summary.total_errors
      = ((updateMasterData now c rs).results_by_scraper.map
          (fun p => p.2.errors.length)).sum ∧
    (updateMasterData now c rs).summary.scrapers_count
      = some (updateMasterData now c rs).results_by_scraper.length :=
  ⟨rfl, rfl, rfl, rfl⟩

/-! ### C7 -/

/-- Whether an announcement would trip the duplicate check of
`add_announcement` against a fixed existing-URL set. -/
def dupHit (urls : List String) (a : Item) : Bool :=
  decide (a.url.getD "" ≠ "") && memStr (a.url.getD "") urls

/-- Feed a batch of announcements (each paired with the uuid generated for
it) through `add_announcement`. -/
def addAll (r : ScraperResult) (batch : List (String × Item)) : ScraperResult :=
  batch.foldl (fun acc p => (addAnnouncement acc p.1 p.2).1) r

/-- C7 counterexample: one `add_announcement` call from a fresh accumulator
is rejected by the default filter with reason `title_keyword: 'rss'` and the
filtered-items tally reaches 1, yet the `filter_reasons` block of `to_dict`
is empty — `add_announcement` discards the reason instead of tallying it in
the content filter, so the serialized reason map does not carry the
occurrence counts of those rejections as the claim states. -/
theorem toDict_filter_reasons_not_tallied :
    shouldFilter defaultFilterConfig itemRss = some (.titleKeyword "rss") ∧
    ((addAnnouncement demoResult "id-1" itemRss).1.toDict.statistics.getFilteredItems = 1) ∧
    ((addAnnouncement demoResult "id-1" itemRss).1.toDict.statistics.getFilterReasons = []) := by
  refine ⟨by decide, by decide, by decide⟩

/-- C7 amended: after any batch of `add_announcement` calls, the serialized
statistics block counts `filtered_items` as the number of filter-rejected
calls and `skipped_duplicates` as the number of duplicate-rejected calls
(both over and above the accumulator's starting counters), but
`filter_reasons` is read from the content filter's own tally, which
`add_announcement` never updates: it stays exactly as it was before the
batch (empty for an accumulator used only through `add_announcement`; only
`ContentFilter.filter_items` records reasons). -/
theorem toDict_statistics_after_adds (r : ScraperResult) (batch : List (String × Item)) :
    (addAll r batch).toDict.statistics.getFilteredItems
      = r.filtered_items
        + (batch.filter (fun p => (shouldFilter r.content_filter.config p.2).isSome)).length ∧
    (addAll r batch).toDict.statistics.getSkippedDuplicates
      = r.skipped_duplicates
        + (batch.filter (fun p =>
            (shouldFilter r.content_filter.config p.2).isNone
              && dupHit r.existing_urls p.2)).length ∧
    (addAll r batch).toDict.statistics.getFilterReasons
      = r.content_filter.filter_reasons := by
  induction batch generalizing r with
  | nil =>
    simp [addAll, ScraperResult.toDict, Statistics.getFilteredItems,
      Statistics.getSkippedDuplicates, Statistics.getFilterReasons]
  | cons p t ih =>
    have hpres := addAnnouncement_preserves r p.1 p.2
    have hcnt := addAnnouncement_counts r p.1 p.2
    have hstep : addAll r (p :: t) = addAll (addAnnouncement r p.1 p.2).1 t := rfl
    have ih' := ih (addAnnouncement r p.1 p.2).1
    rw [hstep]
    rw [hpres.1] at ih'
    rw [hpres.2.1] at ih'
    refine ⟨?_, ?_, ?_⟩
    · rw [ih'.1, hcnt.1]
      by_cases h : (shouldFilter r.content_filter.config p.2).isSome
        <;> simp [h, Nat.add_assoc, Nat.add_comm 1]
    · rw [ih'.2.1, hcnt.2]
      by_cases h : (shouldFilter r.content_filter.config p.2).isNone = true
          ∧ p.2.url.getD "" ≠ "" ∧ memStr (p.2.url.getD "") r.existing_urls = true
      · have hdup2 : dupHit r.existing_urls p.2 = true := by
          simp [dupHit, h.2.1, h.2.2]
        simp [h, hdup2, List.filter_cons, Nat.add_assoc, Nat.add_comm 1]
      · have hd : ((shouldFilter r.content_filter.config p.2).isNone
            && dupHit r.existing_urls p.2) = false := by
          cases hf2 : shouldFilter r.content_filter.config p.2 with
          | some re => simp [hf2]
          | none =>
            by_cases h2 : p.2.url.getD "" = ""
            · simp [dupHit, h2]
            · cases h3 : memStr (p.2.url.getD "") r.existing_urls with
              | true => exact absurd ⟨by simp [hf2], h2, h3⟩ h
              | false => simp [dupHit, h2, h3]
        simp [h, hd, List.filter_cons]
        intro hf2 h2
        cases h3 : memStr (p.2.url.getD "") r.existing_urls with
        | false => rfl
        | true => exact absurd ⟨by simp [hf2], h2, h3⟩ h
    · exact ih'.2.2

/-! ### C5 -/

theorem alookup_append_ne {β : Type} (m : List (String × β)) (k n : String) (d : β)
    (h : k ≠ n) : alookup (m ++ [(k, d)]) n = alookup m n := by
  induction m with
  | nil => simp [alookup, h]
  | cons p t ih => by_cases hp : p.1 = n <;> simp [alookup, hp, ih]

theorem alookup_updateEntry_ne {β : Type} (m : List (String × β)) (k n : String)
    (f : β → β) (h : k ≠ n) : alookup (updateEntry m k f) n = alookup m n := by
  induction m with
  | nil => rfl
  | cons p t ih =>
    simp only [updateEntry] at ih ⊢
    by_cases hp : p.1 = k
    · have hn : p.1 ≠ n := by rw [hp]; exact h
      simp [alookup, hp, hn, h, ih]
    · simp only [List.map_cons, if_neg hp]
      by_cases hn : p.1 = n <;> simp [alookup, hn, ih]

theorem alookup_updateEntry_eq {β : Type} (m : List (String × β)) (n : String)
    (f : β → β) : alookup (updateEntry m n f) n = (alookup m n).map f := by
  induction m with
  | nil => rfl
  | cons p t ih =>
    simp only [updateEntry] at ih ⊢
    by_cases hp : p.1 = n <;> simp [alookup, hp, ih]

theorem containsKey_eq_isSome {β : Type} (m : List (String × β)) (n : String) :
    containsKey m n = (alookup m n).isSome := by
  induction m with
  | nil => rfl
  | cons p t ih => by_cases hp : p.1 = n <;> simp [containsKey, alookup, hp, ih]

/-- Merging results for other scrapers never changes what is stored under a
given name. -/
theorem foldl_mergeStep_preserve (name : String) (l : List (String × ScraperResult))
    (acc : List (String × ScraperData)) (hall : ∀ q ∈ l, q.1 ≠ name) :
    alookup (l.foldl mergeStep acc) name = alookup acc name := by
  induction l generalizing acc with
  | nil => rfl
  | cons q t ih =>
    have hq : q.1 ≠ name := hall q (List.mem_cons_self q t)
    have hstep : alookup (mergeStep acc q) name = alookup acc name := by
      unfold mergeStep
      by_cases hc : containsKey acc q.1
      · simp [hc, alookup_updateEntry_ne _ _ _ _ hq]
      · simp [hc, alookup_append_ne _ _ _ _ hq]
    rw [List.foldl_cons, ih _ (fun x hx => hall x (List.mem_cons_of_mem q hx)), hstep]

/-- Merging a run for a name already present in the mapping rewrites that
entry to the concatenation record. -/
theorem mergeStep_existing (acc : List (String × ScraperData)) (nr : String × ScraperResult)
    (old : ScraperData) (h : alookup acc nr.1 = some old) :
    alookup (mergeStep acc nr) nr.1 = some (mergeScraperData old nr.2.toDict) := by
  have hc : containsKey acc nr.1 = true := by
    rw [containsKey_eq_isSome, h]
    rfl
  unfold mergeStep
  simp only [hc, if_true]
  rw [alookup_updateEntry_eq, h]
  rfl

/-- C5: merging a run whose scraper name is already present in the corpus is
append-only: the stored record afterwards is the old record with the new
run's announcements, full-content entries and errors concatenated onto the
old lists, in order — in particular every pre-existing announcement and
full-content entry survives with all its fields unchanged. -/
theorem updateMasterData_append_only (now name : String) (c : Corpus)
    (rs : List (String × ScraperResult)) (r : ScraperResult) (old : ScraperData)
    (hnd : (rs.map Prod.fst).Nodup)
    (hmem : (name, r) ∈ rs)
    (hold : alookup c.results_by_scraper name = some old) :
    alookup (updateMasterData now c rs).results_by_scraper name
      = some (mergeScraperData old r.toDict) ∧
    (mergeScraperData old r.toDict).announcements
      = old.announcements ++ r.toDict.announcements ∧
    (mergeScraperData old r.toDict).full_content
      = old.full_content ++ r.toDict.full_content ∧
    (mergeScraperData old r.toDict).errors = old.errors ++ r.toDict.errors := by
  refine ⟨?_, rfl, rfl, rfl⟩
  obtain ⟨l₁, l₂, hrs⟩ := List.append_of_mem hmem
  subst hrs
  rw [List.map_append, List.map_cons] at hnd
  rw [List.nodup_append] at hnd
  obtain ⟨-, hnd₂, hdisj⟩ := hnd
  have hname₁ : ∀ q ∈ l₁, q.1 ≠ name := by
    intro q hq hcontra
    exact hdisj (List.mem_map.mpr ⟨q, hq, hcontra⟩) (List.mem_cons_self _ _)
  have hname₂ : ∀ q ∈ l₂, q.1 ≠ name := by
    intro q hq hcontra
    rw [List.nodup_cons] at hnd₂
    exact hnd₂.1 (List.mem_map.mpr ⟨q, hq, hcontra⟩)
  show alookup (((l₁ ++ (name, r) :: l₂).foldl mergeStep c.results_by_scraper)) name
      = some (mergeScraperData old r.toDict)
  rw [List.foldl_append, List.foldl_cons]
  have hacc₁ : alookup (l₁.foldl mergeStep c.results_by_scraper) name = some old :=
    (foldl_mergeStep_preserve name l₁ c.results_by_scraper hname₁).trans hold
  rw [foldl_mergeStep_preserve name l₂ _ hname₂]
  exact mergeStep_existing _ (name, r) old hacc₁

/-- A pre-existing master-file record for the demo scraper. -/
def demoOldData : ScraperData where
  scraper_info :=
    { scraper_name := "demo_scraper", website := "example.com"
      scraped_at := "2024-09-01T00:00:00", session_id := "sess-0" }
  statistics := .run
    { total_announcements := 1, total_full_content := 0, total_errors := 0
      skipped_duplicates := 0, filtered_items := 0, filter_reasons := []
      new_urls_found := 1, extra := [] }
  announcements := [standardizeAnnouncement demoResult "id-0" itemPlain]
  full_content := []
  metadata := []
  errors := []

/-- A corpus holding one record for the demo scraper. -/
def demoCorpus : Corpus where
  scraping_history := { first_scrape := "t0", last_updated := "t0", total_scrapes := 1 }
  summary := { total_announcements := 1, total_full_content := 0, total_errors := 0 }
  results_by_scraper := [("demo_scraper", demoOldData)]

/-- C5, witnessed at the fixture corpus and a one-scraper run. -/
theorem updateMasterData_append_only_witness :
    alookup (updateMasterData "t1" demoCorpus
        [("demo_scraper", demoResult)]).results_by_scraper "demo_scraper"
      = some (mergeScraperData demoOldData demoResult.toDict) ∧
    (mergeScraperData demoOldData demoResult.toDict).announcements
      = demoOldData.announcements ++ demoResult.toDict.announcements ∧
    (mergeScraperData demoOldData demoResult.toDict).full_content
      = demoOldData.full_content ++ demoResult.toDict.full_content ∧
    (mergeScraperData demoOldData demoResult.toDict).errors
      = demoOldData.errors ++ demoResult.toDict.errors :=
  updateMasterData_append_only "t1" "demo_scraper" demoCorpus
    [("demo_scraper", demoResult)] demoResult demoOldData
    (by simp) (List.mem_singleton.mpr rfl) rfl

/-! ### C8 -/


theorem memStr_iff_mem (u : String) (l : List String) : memStr u l = true ↔ u ∈ l := by
  induction l with
  | nil => simp [memStr]
  | cons a t ih =>
    by_cases h : a = u
    · simp [memStr, h]
    · simp only [memStr, if_neg h]
      rw [ih]
      constructor
      · exact fun hm => List.mem_cons_of_mem a hm
      · intro hm
        rcases List.mem_cons.mp hm with he | ht
        · exact absurd he.symm h
        · exact ht

theorem mem_insertIfAbsent (x u : String) (l : List String) :
    x ∈ insertIfAbsent l u ↔ x ∈ l ∨ x = u := by
  unfold insertIfAbsent
  by_cases hm : memStr u l = true
  · rw [if_pos hm]
    have h : u ∈ l := (memStr_iff_mem u l).mp hm
    constructor
    · exact Or.inl
    · rintro (hx | rfl)
      exacts [hx, h]
  · rw [if_neg hm]
    simp [List.mem_append]

theorem nodup_insertIfAbsent (l : List String) (u : String) (h : l.Nodup) :
    (insertIfAbsent l u).Nodup := by
  unfold insertIfAbsent
  by_cases hm : memStr u l = true
  · rw [if_pos hm]
    exact h
  · rw [if_neg hm]
    have hu : u ∉ l := fun hc => hm ((memStr_iff_mem u l).mpr hc)
    rw [List.nodup_append]
    exact ⟨h, List.nodup_singleton u, by simpa using hu⟩

theorem mem_unionList (x : String) (s new : List String) :
    x ∈ unionList s new ↔ x ∈ s ∨ x ∈ new := by
  induction new generalizing s with
  | nil => simp [unionList]
  | cons a t ih =>
    show x ∈ unionList (insertIfAbsent s a) t ↔ _
    rw [ih, mem_insertIfAbsent]
    simp only [List.mem_cons]
    tauto

theorem nodup_unionList (s new : List String) (h : s.Nodup) : (unionList s new).Nodup := by
  induction new generalizing s with
  | nil => exact h
  | cons a t ih => exact ih _ (nodup_insertIfAbsent _ _ h)

/-- When no keyword is found in a field's value, the loop iteration leaves
the accumulator unchanged. -/
theorem searchFieldStep_none (item : SearchItem) (keywords : List String) (cs : Bool)
    (acc : List (String × List String) × List String) (field : String)
    (h : keywords.filter (fun k => textContainsKeyword (getFieldValue item field) k cs) = []) :
    searchFieldStep item keywords cs acc field = acc := by
  unfold searchFieldStep textContainsKeywords
  simp [h]

/-- When some keyword is found in a field's value, the loop iteration records
the filtered keyword list under the field and unions it into the matched
set. -/
theorem searchFieldStep_found (item : SearchItem) (keywords : List String) (cs : Bool)
    (acc : List (String × List String) × List String) (field : String)
    (h : keywords.filter (fun k => textContainsKeyword (getFieldValue item field) k cs) ≠ []) :
    searchFieldStep item keywords cs acc field
      = (acc.1 ++ [(field,
            keywords.filter (fun k => textContainsKeyword (getFieldValue item field) k cs))],
          unionList acc.2
            (keywords.filter (fun k => textContainsKeyword (getFieldValue item field) k cs))) := by
  unfold searchFieldStep textContainsKeywords
  simp [List.length_pos.mpr h]

/-- Membership in the matched-keyword set accumulated by `_search_in_item`:
a keyword ends up in the set exactly when it already was in the accumulator
or it is one of the searched keywords and is found in some field. -/
theorem searchFields_snd_mem (item : SearchItem) (keywords : List String) (cs : Bool)
    (fields : List String) (acc : List (String × List String) × List String) (x : String) :
    x ∈ (searchFields item keywords cs fields acc).2 ↔
      x ∈ acc.2 ∨ (x ∈ keywords ∧ ∃ f ∈ fields,
        textContainsKeyword (getFieldValue item f) x cs = true) := by
  induction fields generalizing acc with
  | nil => simp [searchFields]
  | cons field rest ih =>
    have hcons : searchFields item keywords cs (field :: rest) acc
        = searchFields item keywords cs rest (searchFieldStep item keywords cs acc field) := rfl
    rw [hcons, ih]
    by_cases hm : (keywords.filter
        (fun k => textContainsKeyword (getFieldValue item field) k cs)) = []
    · have hnone : ∀ k ∈ keywords,
          ¬ (textContainsKeyword (getFieldValue item field) k cs = true) := by
        intro k hk hck
        have hmem : k ∈ (keywords.filter
            (fun k => textContainsKeyword (getFieldValue item field) k cs)) :=
          List.mem_filter.mpr ⟨hk, hck⟩
        rw [hm] at hmem
        exact absurd hmem (List.not_mem_nil k)
      rw [searchFieldStep_none item keywords cs acc field hm]
      simp only [List.mem_cons]
      constructor
      · rintro (h | ⟨hk, f, hf, hp⟩)
        · exact Or.inl h
        · exact Or.inr ⟨hk, f, Or.inr hf, hp⟩
      · rintro (h | ⟨hk, f, (rfl | hf), hp⟩)
        · exact Or.inl h
        · exact absurd hp (hnone x hk)
        · exact Or.inr ⟨hk, f, hf, hp⟩
    · rw [searchFieldStep_found item keywords cs acc field hm]
      simp only [mem_unionList, List.mem_filter, List.mem_cons]
      constructor
      · rintro ((h | ⟨hk, hp⟩) | ⟨hk, f, hf, hp⟩)
        · exact Or.inl h
        · exact Or.inr ⟨hk, field, Or.inl rfl, hp⟩
        · exact Or.inr ⟨hk, f, Or.inr hf, hp⟩
      · rintro (h | ⟨hk, f, (rfl | hf), hp⟩)
        · exact Or.inl (Or.inl h)
        · exact Or.inl (Or.inr ⟨hk, hp⟩)
        · exact Or.inr ⟨hk, f, hf, hp⟩

/-- The matched-keyword set accumulated by `_search_in_item` is
duplicate-free (it models a Python `set`). -/
theorem searchFields_snd_nodup (item : SearchItem) (keywords : List String) (cs : Bool)
    (fields : List String) (acc : List (String × List String) × List String)
    (h : acc.2.Nodup) : (searchFields item keywords cs fields acc).2.Nodup := by
  induction fields generalizing acc with
  | nil => exact h
  | cons field rest ih =>
    have hcons : searchFields item keywords cs (field :: rest) acc
        = searchFields item keywords cs rest (searchFieldStep item keywords cs acc field) := rfl
    rw [hcons]
    by_cases hm : (keywords.filter
        (fun k => textContainsKeyword (getFieldValue item field) k cs)) = []
    · rw [searchFieldStep_none item keywords cs acc field hm]
      exact ih _ h
    · rw [searchFieldStep_found item keywords cs acc field hm]
      exact ih _ (nodup_unionList _ _ h)

/-- C8 counterexample: with the duplicated keyword list `["fda", "fda"]`,
every keyword in the list is found in the record's `title` field, yet
`_search_in_item` under mode `all` does not match the record — the match
condition compares the number of *distinct* matched keywords with the length
of the keyword list, so duplicated keywords can never all be accounted
for. -/
theorem searchInItem_all_duplicate_keywords :
    (searchInItem [("title", "fda announcement today")] ["fda", "fda"] ["title"]
        SearchMode.all false).1 = false ∧
    (["fda", "fda"].all (fun k => ["title"].any (fun f =>
        textContainsKeyword (getFieldValue [("title", "fda announcement today")] f) k false)))
      = true :=
  ⟨by decide, by decide⟩

/-- C8 amended: for a duplicate-free keyword list, mode `all` matches exactly
when every keyword is found in at least one configured field — found
keywords are counted across the union of the fields, not per field — and
mode `any` matches exactly when at least one keyword is found in some field.
(For lists with duplicated keywords, `all` compares the count of distinct
matched keywords against the list length and hence never matches.) -/
theorem searchInItem_mode_semantics (item : SearchItem) (keywords fields : List String)
    (cs : Bool) (hnd : keywords.Nodup) :
    ((searchInItem item keywords fields .all cs).1 = true ↔
      ∀ k ∈ keywords, ∃ f ∈ fields,
        textContainsKeyword (getFieldValue item f) k cs = true) ∧
    ((searchInItem item keywords fields .any cs).1 = true ↔
      ∃ k ∈ keywords, ∃ f ∈ fields,
        textContainsKeyword (getFieldValue item f) k cs = true) := by
  have hmem : ∀ x, x ∈ (searchFields item keywords cs fields ([], [])).2 ↔
      x ∈ keywords ∧ ∃ f ∈ fields,
        textContainsKeyword (getFieldValue item f) x cs = true := by
    intro x
    rw [searchFields_snd_mem]
    simp
  have hnodS : (searchFields item keywords cs fields ([], [])).2.Nodup :=
    searchFields_snd_nodup item keywords cs fields ([], []) List.nodup_nil
  have hsub : (searchFields item keywords cs fields ([], [])).2 ⊆ keywords :=
    fun _ hx => ((hmem _).mp hx).1
  constructor
  · show decide ((searchFields item keywords cs fields ([], [])).2.length
        = keywords.length) = true ↔ _
    rw [decide_eq_true_iff]
    constructor
    · intro hlen k hk
      have h1 : (searchFields item keywords cs fields ([], [])).2.toFinset
          ⊆ keywords.toFinset := by
        intro a ha
        rw [List.mem_toFinset] at ha ⊢
        exact hsub ha
      have hcard : keywords.toFinset.card
          ≤ (searchFields item keywords cs fields ([], [])).2.toFinset.card := by
        rw [List.toFinset_card_of_nodup hnodS, List.toFinset_card_of_nodup hnd, hlen]
      have heq := Finset.eq_of_subset_of_card_le h1 hcard
      have hkS : k ∈ (searchFields item keywords cs fields ([], [])).2 := by
        have h2 : k ∈ keywords.toFinset := List.mem_toFinset.mpr hk
        rw [← heq] at h2
        exact List.mem_toFinset.mp h2
      exact ((hmem k).mp hkS).2
    · intro hall
      have hfin : (searchFields item keywords cs fields ([], [])).2.toFinset
          = keywords.toFinset := by
        ext a
        simp only [List.mem_toFinset]
        exact ⟨fun hx => hsub hx, fun hx => (hmem a).mpr ⟨hx, hall a hx⟩⟩
      calc (searchFields item keywords cs fields ([], [])).2.length
          = (searchFields item keywords cs fields ([], [])).2.toFinset.card :=
            (List.toFinset_card_of_nodup hnodS).symm
        _ = keywords.toFinset.card := by rw [hfin]
        _ = keywords.length := List.toFinset_card_of_nodup hnd
  · show decide (0 < (searchFields item keywords cs fields ([], [])).2.length)
        = true ↔ _
    rw [decide_eq_true_iff]
    constructor
    · intro hpos
      obtain ⟨x, hx⟩ := List.exists_mem_of_ne_nil _ (List.length_pos.mp hpos)
      obtain ⟨hk, f, hf, hp⟩ := (hmem x).mp hx
      exact ⟨x, hk, f, hf, hp⟩
    · rintro ⟨k, hk, f, hf, hp⟩
      exact List.length_pos.mpr (List.ne_nil_of_mem ((hmem k).mpr ⟨hk, f, hf, hp⟩))

/-- C8 amended, witnessed at the spec's own example: keywords
`["fda", "approval"]` against a record whose title contains only "fda". -/
theorem searchInItem_mode_semantics_witness :
    ((searchInItem [("title", "fda clears new device")] ["fda", "approval"] ["title"]
        SearchMode.all false).1 = true ↔
      ∀ k ∈ ["fda", "approval"], ∃ f ∈ ["title"],
        textContainsKeyword (getFieldValue [("title", "fda clears new device")] f) k false
          = true) ∧
    ((searchInItem [("title", "fda clears new device")] ["fda", "approval"] ["title"]
        SearchMode.any false).1 = true ↔
      ∃ k ∈ ["fda", "approval"], ∃ f ∈ ["title"],
        textContainsKeyword (getFieldValue [("title", "fda clears new device")] f) k false
          = true) :=
  searchInItem_mode_semantics [("title", "fda clears new device")] ["fda", "approval"]
    ["title"] false (by decide)

/-! ### C9 -/

theorem charEq_of_toNat_eq (a b : Char) (h : a.toNat = b.toNat) : a = b := by
  have hh := Char.ofNat_toNat a
  rw [← hh, h, Char.ofNat_toNat]

theorem strLtL_asymm (a : List Char) : ∀ b, strLtL a b = true → strLtL b a = false := by
  induction a with
  | nil =>
    intro b h
    cases b with
    | nil => simp [strLtL] at h
    | cons y ys => simp [strLtL]
  | cons x xs ih =>
    intro b h
    cases b with
    | nil => simp [strLtL] at h
    | cons y ys =>
      simp only [strLtL] at h ⊢
      by_cases h1 : x.toNat < y.toNat
      · have h2 : ¬ y.toNat < x.toNat := Nat.lt_asymm h1
        simp [h1, h2]
      · by_cases h2 : y.toNat < x.toNat
        · simp [h1, h2] at h
        · simp only [if_neg h1, if_neg h2] at h ⊢
          exact ih ys h

theorem strLtL_trans (a : List Char) :
    ∀ b c, strLtL a b = true → strLtL b c = true → strLtL a c = true := by
  induction a with
  | nil =>
    intro b c hab hbc
    cases c with
    | nil =>
      cases b with
      | nil => exact hab
      | cons y ys => simp [strLtL] at hbc
    | cons z zs => simp [strLtL]
  | cons x xs ih =>
    intro b c hab hbc
    cases b with
    | nil => simp [strLtL] at hab
    | cons y ys =>
      cases c with
      | nil => simp [strLtL] at hbc
      | cons z zs =>
        simp only [strLtL] at hab hbc ⊢
        by_cases h1 : x.toNat < y.toNat <;> by_cases h2 : y.toNat < z.toNat
        · simp [Nat.lt_trans h1 h2]
        · by_cases h3 : z.toNat < y.toNat
          · simp [h2, h3] at hbc
          · have hxz : x.toNat < z.toNat := by omega
            simp [hxz]
        · by_cases h3 : y.toNat < x.toNat
          · simp [h1, h3] at hab
          · have hxz : x.toNat < z.toNat := by omega
            simp [hxz]
        · by_cases h3 : y.toNat < x.toNat
          · simp [h1, h3] at hab
          · by_cases h4 : z.toNat < y.toNat
            · simp [h2, h4] at hbc
            · have hxz1 : ¬ x.toNat < z.toNat := by omega
              have hxz2 : ¬ z.toNat < x.toNat := by omega
              simp only [if_neg h1, if_neg h3] at hab
              simp only [if_neg h2, if_neg h4] at hbc
              simp only [if_neg hxz1, if_neg hxz2]
              exact ih ys zs hab hbc

theorem strLtL_not_lt (a : List Char) :
    ∀ b, strLtL a b = false → a = b ∨ strLtL b a = true := by
  induction a with
  | nil =>
    intro b h
    cases b with
    | nil => exact Or.inl rfl
    | cons y ys => simp [strLtL] at h
  | cons x xs ih =>
    intro b h
    cases b with
    | nil => exact Or.inr rfl
    | cons y ys =>
      simp only [strLtL] at h ⊢
      by_cases h1 : x.toNat < y.toNat
      · simp [h1] at h
      · by_cases h2 : y.toNat < x.toNat
        · exact Or.inr (by simp [h2])
        · simp only [if_neg h1, if_neg h2] at h
          have hxy : x = y := charEq_of_toNat_eq x y (by omega)
          rcases ih ys h with heq | hlt
          · exact Or.inl (by rw [hxy, heq])
          · refine Or.inr ?_
            have h1' : ¬ y.toNat < x.toNat := h2
            have h2' : ¬ x.toNat < y.toNat := h1
            simp only [if_neg h1', if_neg h2']
            exact hlt

instance : IsTotal LightItem keyGe where
  total a b := by
    unfold keyGe
    cases h : strLt (feedSortKey a) (feedSortKey b)
    · exact Or.inl rfl
    · exact Or.inr (strLtL_asymm _ _ h)

instance : IsTrans LightItem keyGe where
  trans a b c hab hbc := by
    unfold keyGe at hab hbc ⊢
    cases hac : strLt (feedSortKey a) (feedSortKey c)
    · rfl
    · exfalso
      have hab' : strLtL (feedSortKey a).data (feedSortKey b).data = false := hab
      have hbc' : strLtL (feedSortKey b).data (feedSortKey c).data = false := hbc
      have hac' : strLtL (feedSortKey a).data (feedSortKey c).data = true := hac
      rcases strLtL_not_lt _ _ hab' with heq | hlt
      · rw [heq] at hac'
        rw [hbc'] at hac'
        exact Bool.false_ne_true hac'
      · have hx := strLtL_trans _ _ _ hlt hac'
        rw [hbc'] at hx
        exact Bool.false_ne_true hx

/-- The claim's property: every item whose `date` field is empty appears
after every item with a populated `date` field. -/
def emptyDatesLast : List LightItem → Bool
  | [] => true
  | x :: xs => if x.date = "" then xs.all (fun y => y.date = "") else emptyDatesLast xs

/-- The amended property: every item whose *sort key* (date, falling back to
`scraped_at`) is empty appears after every item with a non-empty key. -/
def emptyKeyLast : List LightItem → Bool
  | [] => true
  | x :: xs =>
    if feedSortKey x = "" then xs.all (fun y => feedSortKey y = "") else emptyKeyLast xs

/-- A populated-date item scraped early. -/
def demoItemDated : LightItem where
  id := "a"
  title := "Dated item"
  url := "https://example.com/a"
  date := "2024-01-01"
  category := "General"
  excerpt := ""
  source_website := "example.com"
  scraped_at := "2024-01-02T00:00:00"

/-- An item with an empty date but a recent scrape timestamp. -/
def demoItemUndated : LightItem where
  id := "b"
  title := "Undated item"
  url := "https://example.com/b"
  date := ""
  category := "General"
  excerpt := ""
  source_website := "example.com"
  scraped_at := "2025-06-01T00:00:00"

/-- C9 counterexample: the feed sort key falls back to `scraped_at` when the
date is empty, so an empty-date item with a recent scrape timestamp sorts
*before* a populated-date item — the empty string is never the compared key
for it.  The claim's empty-dates-last property fails on this two-item
feed. -/
theorem sortItemsDesc_empty_date_first :
    demoItemDated.date ≠ "" ∧ demoItemUndated.date = "" ∧
    sortItemsDesc [demoItemDated, demoItemUndated] = [demoItemUndated, demoItemDated] ∧
    emptyDatesLast (sortItemsDesc [demoItemDated, demoItemUndated]) = false := by
  exact ⟨by decide, rfl, by decide, by decide⟩

/-- In any list sorted descending by the feed key, every item whose key is
the empty string comes after every item with a non-empty key. -/
theorem emptyKeyLast_of_sorted : ∀ m : List LightItem,
    List.Sorted keyGe m → emptyKeyLast m = true := by
  intro m
  induction m with
  | nil => intro _; rfl
  | cons x xs ih =>
    intro hsorted
    rw [List.sorted_cons] at hsorted
    obtain ⟨hx, hxs⟩ := hsorted
    by_cases hk : feedSortKey x = ""
    · simp only [emptyKeyLast, if_pos hk]
      rw [List.all_eq_true]
      intro y hy
      have hge := hx y hy
      unfold keyGe at hge
      rw [hk] at hge
      have hdata : (feedSortKey y).data = [] := by
        cases hcd : (feedSortKey y).data with
        | nil => rfl
        | cons c cs =>
          have hlt : strLt "" (feedSortKey y) = true := by
            show strLtL "".data (feedSortKey y).data = true
            rw [hcd]
            rfl
          rw [hge] at hlt
          exact absurd hlt Bool.false_ne_true
      have : feedSortKey y = "" := String.ext hdata
      simp [this]
    · simp only [emptyKeyLast, if_neg hk]
      exact ih hxs

/-- C9 amended: the feed sort compares by string comparison on the key
`date or scraped_at` (the date field when non-empty, otherwise the scrape
timestamp), descending; the empty string compares less than any populated
key, so every item whose *key* is empty — date and `scraped_at` both
empty — appears after every item with a populated key. -/
theorem sortItemsDesc_sorted_empty_key_last (l : List LightItem) :
    List.Sorted keyGe (sortItemsDesc l) ∧ emptyKeyLast (sortItemsDesc l) = true :=
  ⟨List.sorted_insertionSort keyGe l,
    emptyKeyLast_of_sorted _ (List.sorted_insertionSort keyGe l)⟩
